import Mathlib

/-!
Verification of the `ambisync` plan interpreter (src/ambisync.py).

The library runs a fixed, linear "plan" of subroutine specifications either
synchronously (`_do_sync_call`) or asynchronously (`_do_async_call`),
selected by a mode singleton stored on `AmbisyncBaseClass`.

Shallow embedding notes:
* Python values threaded between steps are modelled by `Value`; the `args`
  argument-bundle class is the `Value.bundle` constructor (its positional
  tuple and keyword dict become a list and an association list).
* A Python callable is modelled by `Routine`: an identity `rid` (so that
  invocations can be observed in a trace) and a semantic function `impl`
  from positional and keyword arguments to `Except PyErr Value`.
  An `async def` coroutine function is a `Member.afn`; calling it without
  `await` yields an un-run coroutine object, modelled by `Value.coro`.
* Exceptions are modelled by `Except PyErr`; `PyErr` covers the built-in
  `TypeError`/`IndexError`/`RuntimeError` the interpreter machinery can
  raise, the library's `AmbisyncError`, and arbitrary application errors
  (`PyErr.user`).
* Both interpreters are instrumented with a `Trace` of calls actually made
  (routine identity plus the arguments passed), so that "routine X is never
  invoked" claims are statable.
-/

/-- Python values threaded through a plan. `bundle` is the library's `args`
class (positional values plus keyword values); `coro` is an un-awaited
coroutine object produced by calling an `async def` function without
`await` (its body has not run). -/
inductive Value where
  | none : Value
  | int (n : Int) : Value
  | str (s : String) : Value
  | bundle (pos : List Value) (kwds : List (String × Value)) : Value
  | coro (rid : Nat) : Value

/-- Errors: Python built-ins raised by the interpreter machinery
(`typeError`, `indexError`, `runtimeError`), the library's `AmbisyncError`
(`ambisyncError`), and arbitrary application errors raised by user
routines (`user`). -/
inductive PyErr where
  | typeError : PyErr
  | indexError : PyErr
  | runtimeError : PyErr
  | ambisyncError : PyErr
  | user (v : Value) : PyErr

/-- A Python callable: an object identity `rid` (for observing invocations)
and its semantics `impl`, mapping positional and keyword arguments to a
result or a raised error. -/
structure Routine where
  rid : Nat
  impl : List Value → List (String × Value) → Except PyErr Value

/-- A member of a plan entry: a plain (sync) callable, an `async def`
coroutine function (whose awaited call yields `impl`'s result), or a
non-callable value. -/
inductive Member where
  | fn (r : Routine) : Member
  | afn (r : Routine) : Member
  | val (v : Value) : Member

/-- One subroutine spec of a plan, as accepted by `_ambisync(*plan_spec)`:
either a bare (non-subscriptable) object or a tuple of members. -/
inductive Entry where
  | single (m : Member) : Entry
  | tup (ms : List Member) : Entry

/-- A plan spec: the ordered sequence of subroutine specs. -/
abbrev Plan := List Entry

/-- A record of one actual invocation of a routine: which routine ran and
with which positional and keyword arguments. -/
structure CallEvent where
  rid : Nat
  pos : List Value
  kwds : List (String × Value)

/-- The sequence of invocations an interpreter run actually performed. -/
abbrev Trace := List CallEvent

/-- The `args` class: anonymous function arguments (positional plus
keyword). A `Value.bundle pos kwds` is an instance of this class. -/
structure ArgsObj where
  args : List Value
  kwds : List (String × Value)

/-- `args.call_with(func)`: call a function with our arguments
(`func(*self.args, **self.kwds)`). -/
def ArgsObj.call_with (a : ArgsObj) (func : Routine) : Except PyErr Value :=
  func.impl a.args a.kwds

/-- `_call_with_args(func, args_obj)`: if `args_obj` is an `args` instance,
call `func` through it; otherwise call `func` with no arguments. -/
def _call_with_args (func : Routine) (args_obj : Value) : Except PyErr Value :=
  match args_obj with
  | .bundle pos kwds => ArgsObj.call_with ⟨pos, kwds⟩ func
  | _ => func.impl [] []

/-- The positional and keyword arguments `_call_with_args` passes for a
given accumulator value: the bundle's contents, or none. -/
def callArgs (args_obj : Value) : List Value × List (String × Value) :=
  match args_obj with
  | .bundle pos kwds => (pos, kwds)
  | _ => ([], [])

/-- Calling a resolved member without `await` (the sync interpreter, and
the async interpreter's non-awaited branch). Calling a plain function runs
its body (recorded in the trace); calling a coroutine function returns an
un-run coroutine object (body not entered, nothing recorded); calling a
non-callable raises `TypeError`. -/
def callPlain (m : Member) (ret : Value) (tr : Trace) :
    Trace × Except PyErr Value :=
  match m with
  | .fn r => (tr ++ [⟨r.rid, (callArgs ret).1, (callArgs ret).2⟩], _call_with_args r ret)
  | .afn r => (tr, .ok (.coro r.rid))
  | .val _ => (tr, .error .typeError)

/-- `await _call_with_args(subroutine, ret)` for a resolved member: an
awaited coroutine function runs to its result; a plain function's body
runs first, then awaiting its non-awaitable return raises `TypeError`;
a non-callable raises `TypeError` before anything is awaited. -/
def callAwaited (m : Member) (ret : Value) (tr : Trace) :
    Trace × Except PyErr Value :=
  match m with
  | .fn r =>
      (tr ++ [⟨r.rid, (callArgs ret).1, (callArgs ret).2⟩],
        match _call_with_args r ret with
        | .error e => .error e
        | .ok _ => .error .typeError)
  | .afn r => (tr ++ [⟨r.rid, (callArgs ret).1, (callArgs ret).2⟩], _call_with_args r ret)
  | .val _ => (tr, .error .typeError)

/-- `_do_sync_call`'s per-entry resolution: `subroutine_spec[0]`, falling
back to the spec itself on `TypeError` (a bare non-subscriptable object).
Indexing an empty tuple raises `IndexError`, which is not caught. -/
def resolveSyncEntry : Entry → Except PyErr Member
  | .single m => .ok m
  | .tup [] => .error .indexError
  | .tup (m :: _) => .ok m

/-- `_do_async_call`'s per-entry resolution: try `subroutine_spec[1]`
(awaited); on `IndexError` fall back to `subroutine_spec[0]` (not awaited,
and an empty tuple re-raises `IndexError` there uncaught); on `TypeError`
use the bare spec itself (not awaited). Returns the member and whether the
call is awaited. -/
def resolveAsyncEntry : Entry → Except PyErr (Member × Bool)
  | .single m => .ok (m, false)
  | .tup [] => .error .indexError
  | .tup [m] => .ok (m, false)
  | .tup (_ :: m1 :: _) => .ok (m1, true)

/-- One iteration of `_do_sync_call`'s loop: resolve the entry, then call
the resolved subroutine through `_call_with_args`. -/
def stepSync (e : Entry) (ret : Value) (tr : Trace) :
    Trace × Except PyErr Value :=
  match resolveSyncEntry e with
  | .error err => (tr, .error err)
  | .ok m => callPlain m ret tr

/-- One iteration of `_do_async_call`'s loop: resolve the entry, then call
the resolved subroutine, awaiting it exactly when resolution chose the
second tuple element. -/
def stepAsync (e : Entry) (ret : Value) (tr : Trace) :
    Trace × Except PyErr Value :=
  match resolveAsyncEntry e with
  | .error err => (tr, .error err)
  | .ok (m, awaited) => if awaited then callAwaited m ret tr else callPlain m ret tr

/-- The loop of `_do_sync_call`: thread `ret` through the entries in order,
aborting on the first raised error. -/
def syncRun : Plan → Value → Trace → Trace × Except PyErr Value
  | [], ret, tr => (tr, .ok ret)
  | e :: rest, ret, tr =>
      match stepSync e ret tr with
      | (tr2, .error err) => (tr2, .error err)
      | (tr2, .ok v) => syncRun rest v tr2

/-- `_do_sync_call(plan_spec)`: synchronously run a plan spec, starting
from `ret = None`, returning the final `ret` (paired here with the trace of
invocations actually made). -/
def _do_sync_call (plan_spec : Plan) : Trace × Except PyErr Value :=
  syncRun plan_spec .none []

/-- The loop of `_do_async_call`: identical threading, but a two-element
spec's second member is awaited before the loop proceeds. -/
def asyncRun : Plan → Value → Trace → Trace × Except PyErr Value
  | [], ret, tr => (tr, .ok ret)
  | e :: rest, ret, tr =>
      match stepAsync e ret tr with
      | (tr2, .error err) => (tr2, .error err)
      | (tr2, .ok v) => asyncRun rest v tr2

/-- The behavior of awaiting the coroutine object `_do_async_call(plan_spec)`:
run the plan asynchronously from `ret = None`. -/
def _do_async_call (plan_spec : Plan) : Trace × Except PyErr Value :=
  asyncRun plan_spec .none []

/-- The runtime class of a candidate mode object (`_Sync` or `_Async`). -/
inductive ModeClass where
  | syncCls : ModeClass
  | asyncCls : ModeClass
deriving DecidableEq

/-- A Python object of one of the `Mode` subclasses: its class and its
object identity. Python `is` on such objects is equality of `ModeVal`
(distinct allocations have distinct `oid`s). -/
structure ModeVal where
  cls : ModeClass
  oid : Nat
deriving DecidableEq

/-- The module-level singleton `SYNC = _Sync()`. -/
def SYNC : ModeVal := ⟨.syncCls, 0⟩

/-- The module-level singleton `ASYNC = _Async()`. -/
def ASYNC : ModeVal := ⟨.asyncCls, 1⟩

/-- A fresh `_Sync()` instance allocated with object identity `oid`
(distinct from the singleton when `oid ≠ 0`). -/
def freshSync (oid : Nat) : ModeVal := ⟨.syncCls, oid⟩

/-- `AmbisyncBaseClass`: holds the mode fixed at construction. -/
structure AmbisyncBaseClass where
  _ambisync_mode : ModeVal

/-- `AmbisyncBaseClass.__init__(self, mode)`: raise `AmbisyncError` unless
`mode is SYNC or mode is ASYNC`; otherwise store the mode unchanged. -/
def AmbisyncBaseClass.init (mode : ModeVal) : Except PyErr AmbisyncBaseClass :=
  if mode ≠ SYNC ∧ mode ≠ ASYNC then .error .ambisyncError
  else .ok ⟨mode⟩

/-- What `_ambisync` hands back to its caller: under `SYNC` the plan has
already run synchronously and this is its outcome; under `ASYNC` this is
the un-awaited coroutine object, which runs `_do_async_call` on its plan
when awaited. -/
inductive AmbisyncResult where
  | syncResult (out : Trace × Except PyErr Value) : AmbisyncResult
  | coroutine (plan_spec : Plan) : AmbisyncResult

/-- `AmbisyncBaseClass._ambisync(self, *plan_spec)`: run the plan before
returning under `SYNC`; return the coroutine object under `ASYNC`; raise
`RuntimeError` otherwise. -/
def AmbisyncBaseClass._ambisync (self : AmbisyncBaseClass) (plan_spec : Plan) :
    Except PyErr AmbisyncResult :=
  if self._ambisync_mode = SYNC then .ok (.syncResult (_do_sync_call plan_spec))
  else if self._ambisync_mode = ASYNC then .ok (.coroutine plan_spec)
  else .error .runtimeError

/-- `AmbisyncBaseClass._call_ambisync(self, method)`: produce a plan entry
`(method, method)` that calls another ambisync method. -/
def AmbisyncBaseClass._call_ambisync (method : Member) : Entry :=
  .tup [method, method]

/-- Spec-side invocation rule (§4.3): invoke the routine with explicit
arguments if the current accumulator is an ArgBundle, with no arguments
otherwise (any other accumulator value, null or not, is dropped). -/
def specInvoke (r : Routine) (acc : Value) : Except PyErr Value :=
  match acc with
  | .bundle pos kwds => r.impl pos kwds
  | _ => r.impl [] []

/-- Spec-side single transition of the Blocking interpreter: on an already
raised error do nothing; otherwise resolve the step's blocking-applicable
member (§4.2) and set the accumulator to the call's result, using the
spec's invocation rule for a routine (degenerate members behave as the
call would: an un-awaited coroutine object for an `async def`, `TypeError`
for a non-callable). -/
def specStep (acc : Except PyErr Value) (e : Entry) : Except PyErr Value :=
  match acc with
  | .error err => .error err
  | .ok a =>
      match resolveSyncEntry e with
      | .error err => .error err
      | .ok (.fn r) => specInvoke r a
      | .ok (.afn r) => .ok (.coro r.rid)
      | .ok (.val _) => .error .typeError

/-- Spec-side Blocking execution (§4.3): initialize the accumulator to
empty and fold the spec-side transition over the steps in declaration
order. -/
def specBlockingRun (plan : Plan) : Except PyErr Value :=
  plan.foldl specStep (.ok .none)

/-- The plans covered by the equivalence contract: every two-element (Dual)
step is a plain routine paired with a coroutine routine of identical
behavior; longer tuples (outside the spec's step shapes) are excluded;
bare, one-element and degenerate steps are unconstrained. -/
def GoodEntry : Entry → Prop
  | .tup [.fn f, .afn g] => f.impl = g.impl
  | .tup (_ :: _ :: _) => False
  | _ => True

/-- The routine identities the sync interpreter invokes when it executes a
given entry (at most one; none when the entry errors before calling or
produces an un-run coroutine object). -/
def entrySyncCalls : Entry → List Nat
  | .single (.fn r) => [r.rid]
  | .single _ => []
  | .tup (.fn r :: _) => [r.rid]
  | .tup _ => []

/-- The routine identities the async interpreter invokes when it executes
a given entry: the second tuple element of a two-or-more-element spec
(even a plain function runs before awaiting it fails), the first element
of a one-element spec, the bare object itself otherwise. -/
def entryAsyncCalls : Entry → List Nat
  | .single (.fn r) => [r.rid]
  | .single _ => []
  | .tup [.fn r] => [r.rid]
  | .tup (_ :: .fn r :: _) => [r.rid]
  | .tup (_ :: .afn r :: _) => [r.rid]
  | .tup _ => []

/-- Concatenated sync-mode invocation identities of a whole plan, in step
order. -/
def planSyncCalls : Plan → List Nat
  | [] => []
  | e :: rest => entrySyncCalls e ++ planSyncCalls rest

/-- Concatenated async-mode invocation identities of a whole plan, in step
order. -/
def planAsyncCalls : Plan → List Nat
  | [] => []
  | e :: rest => entryAsyncCalls e ++ planAsyncCalls rest

lemma _call_with_args_congr {f g : Routine} (h : f.impl = g.impl) (v : Value) :
    _call_with_args f v = _call_with_args g v := by
  cases v <;> simp [_call_with_args, ArgsObj.call_with, h]

lemma stepSync_snd (e : Entry) (v : Value) (tr : Trace) :
    (stepSync e v tr).2 = specStep (.ok v) e := by
  cases e with
  | single m => cases m <;> cases v <;> rfl
  | tup ms =>
    cases ms with
    | nil => rfl
    | cons m rest => cases m <;> cases v <;> rfl

lemma foldl_specStep_error : ∀ (plan : Plan) (err : PyErr),
    plan.foldl specStep (.error err) = .error err := by
  intro plan
  induction plan with
  | nil => intro err; rfl
  | cons e rest ih => intro err; simpa [List.foldl, specStep] using ih err

lemma syncRun_snd_foldl : ∀ (plan : Plan) (v : Value) (tr : Trace),
    (syncRun plan v tr).2 = plan.foldl specStep (.ok v) := by
  intro plan
  induction plan with
  | nil => intro v tr; rfl
  | cons e rest ih =>
    intro v tr
    have h := stepSync_snd e v tr
    simp only [syncRun, List.foldl]
    cases hs : stepSync e v tr with
    | mk t2 r =>
      rw [hs] at h
      dsimp at h
      rw [← h]
      cases r with
      | error err => exact (foldl_specStep_error rest err).symm
      | ok u => exact ih u t2

lemma syncRun_append_ok : ∀ (pre : Plan) (v : Value) (tr t : Trace) (w : Value),
    syncRun pre v tr = (t, .ok w) →
    ∀ rest : Plan, syncRun (pre ++ rest) v tr = syncRun rest w t := by
  intro pre
  induction pre with
  | nil =>
    intro v tr t w h rest
    simp only [syncRun, Prod.mk.injEq, Except.ok.injEq] at h
    obtain ⟨rfl, rfl⟩ := h
    rfl
  | cons e pre ih =>
    intro v tr t w h rest
    simp only [syncRun] at h
    simp only [List.cons_append, syncRun]
    cases hs : stepSync e v tr with
    | mk t2 r =>
      rw [hs] at h
      cases r with
      | error err => simp at h
      | ok u => exact ih u t2 t w h rest

lemma syncRun_append_error : ∀ (pre : Plan) (v : Value) (tr t : Trace) (err : PyErr),
    syncRun pre v tr = (t, .error err) →
    ∀ rest : Plan, syncRun (pre ++ rest) v tr = (t, .error err) := by
  intro pre
  induction pre with
  | nil =>
    intro v tr t err h rest
    simp only [syncRun, Prod.mk.injEq] at h
    exact absurd h.2 (by simp)
  | cons e pre ih =>
    intro v tr t err h rest
    simp only [syncRun] at h
    simp only [List.cons_append, syncRun]
    cases hs : stepSync e v tr with
    | mk t2 r =>
      rw [hs] at h
      cases r with
      | error e2 => exact h
      | ok u => exact ih u t2 t err h rest

lemma asyncRun_append_ok : ∀ (pre : Plan) (v : Value) (tr t : Trace) (w : Value),
    asyncRun pre v tr = (t, .ok w) →
    ∀ rest : Plan, asyncRun (pre ++ rest) v tr = asyncRun rest w t := by
  intro pre
  induction pre with
  | nil =>
    intro v tr t w h rest
    simp only [asyncRun, Prod.mk.injEq, Except.ok.injEq] at h
    obtain ⟨rfl, rfl⟩ := h
    rfl
  | cons e pre ih =>
    intro v tr t w h rest
    simp only [asyncRun] at h
    simp only [List.cons_append, asyncRun]
    cases hs : stepAsync e v tr with
    | mk t2 r =>
      rw [hs] at h
      cases r with
      | error err => simp at h
      | ok u => exact ih u t2 t w h rest

lemma asyncRun_append_error : ∀ (pre : Plan) (v : Value) (tr t : Trace) (err : PyErr),
    asyncRun pre v tr = (t, .error err) →
    ∀ rest : Plan, asyncRun (pre ++ rest) v tr = (t, .error err) := by
  intro pre
  induction pre with
  | nil =>
    intro v tr t err h rest
    simp only [asyncRun, Prod.mk.injEq] at h
    exact absurd h.2 (by simp)
  | cons e pre ih =>
    intro v tr t err h rest
    simp only [asyncRun] at h
    simp only [List.cons_append, asyncRun]
    cases hs : stepAsync e v tr with
    | mk t2 r =>
      rw [hs] at h
      cases r with
      | error e2 => exact h
      | ok u => exact ih u t2 t err h rest

lemma stepSync_fst (e : Entry) (v : Value) (tr : Trace) :
    ∃ evs : Trace, (stepSync e v tr).1 = tr ++ evs ∧
      evs.map CallEvent.rid = entrySyncCalls e := by
  cases e with
  | single m =>
    cases m with
    | fn r => exact ⟨[⟨r.rid, (callArgs v).1, (callArgs v).2⟩], rfl, rfl⟩
    | afn r => exact ⟨[], by simp [stepSync, resolveSyncEntry, callPlain, entrySyncCalls]⟩
    | val w => exact ⟨[], by simp [stepSync, resolveSyncEntry, callPlain, entrySyncCalls]⟩
  | tup ms =>
    cases ms with
    | nil => exact ⟨[], by simp [stepSync, resolveSyncEntry, entrySyncCalls]⟩
    | cons m rest =>
      cases m with
      | fn r => exact ⟨[⟨r.rid, (callArgs v).1, (callArgs v).2⟩], rfl, rfl⟩
      | afn r => exact ⟨[], by simp [stepSync, resolveSyncEntry, callPlain, entrySyncCalls]⟩
      | val w => exact ⟨[], by simp [stepSync, resolveSyncEntry, callPlain, entrySyncCalls]⟩

lemma stepAsync_fst (e : Entry) (v : Value) (tr : Trace) :
    ∃ evs : Trace, (stepAsync e v tr).1 = tr ++ evs ∧
      evs.map CallEvent.rid = entryAsyncCalls e := by
  cases e with
  | single m =>
    cases m with
    | fn r => exact ⟨[⟨r.rid, (callArgs v).1, (callArgs v).2⟩], rfl, rfl⟩
    | afn r => exact ⟨[], by simp [stepAsync, resolveAsyncEntry, callPlain, entryAsyncCalls]⟩
    | val w => exact ⟨[], by simp [stepAsync, resolveAsyncEntry, callPlain, entryAsyncCalls]⟩
  | tup ms =>
    cases ms with
    | nil => exact ⟨[], by simp [stepAsync, resolveAsyncEntry, entryAsyncCalls]⟩
    | cons m0 ms2 =>
      cases ms2 with
      | nil =>
        cases m0 with
        | fn r => exact ⟨[⟨r.rid, (callArgs v).1, (callArgs v).2⟩], rfl, rfl⟩
        | afn r => exact ⟨[], by simp [stepAsync, resolveAsyncEntry, callPlain, entryAsyncCalls]⟩
        | val w => exact ⟨[], by simp [stepAsync, resolveAsyncEntry, callPlain, entryAsyncCalls]⟩
      | cons m1 ms3 =>
        cases m1 with
        | fn r => exact ⟨[⟨r.rid, (callArgs v).1, (callArgs v).2⟩], rfl, by cases m0 <;> rfl⟩
        | afn r => exact ⟨[⟨r.rid, (callArgs v).1, (callArgs v).2⟩], rfl, by cases m0 <;> rfl⟩
        | val w => exact ⟨[], by cases m0 <;> simp [stepAsync, resolveAsyncEntry, callAwaited, entryAsyncCalls]⟩

lemma syncRun_fst : ∀ (plan : Plan) (v : Value) (tr : Trace),
    ∃ evs : Trace, (syncRun plan v tr).1 = tr ++ evs ∧
      (∃ later, evs.map CallEvent.rid ++ later = planSyncCalls plan) ∧
      (∀ w : Value, (syncRun plan v tr).2 = .ok w →
        evs.map CallEvent.rid = planSyncCalls plan) := by
  intro plan
  induction plan with
  | nil =>
    intro v tr
    exact ⟨[], by simp [syncRun], ⟨[], by simp [planSyncCalls]⟩, fun w _ => by simp [planSyncCalls]⟩
  | cons e rest ih =>
    intro v tr
    obtain ⟨evs1, h1, hc1⟩ := stepSync_fst e v tr
    cases hs : stepSync e v tr with
    | mk t2 r =>
      rw [hs] at h1
      dsimp at h1
      subst h1
      cases r with
      | error err =>
        refine ⟨evs1, ?_, ?_, ?_⟩
        · simp [syncRun, hs]
        · exact ⟨planSyncCalls rest, by simp [planSyncCalls, hc1]⟩
        · intro w hw
          rw [show (syncRun (e :: rest) v tr).2 = .error err by simp [syncRun, hs]] at hw
          exact absurd hw (by simp)
      | ok u =>
        obtain ⟨evs2, h2, ⟨later2, hl2⟩, hfull2⟩ := ih u (tr ++ evs1)
        have hrun : syncRun (e :: rest) v tr = syncRun rest u (tr ++ evs1) := by
          simp [syncRun, hs]
        refine ⟨evs1 ++ evs2, ?_, ?_, ?_⟩
        · rw [hrun, h2, List.append_assoc]
        · exact ⟨later2, by simp [planSyncCalls, hc1, ← hl2]⟩
        · intro w hw
          rw [hrun] at hw
          simp [planSyncCalls, hc1, hfull2 w hw]

lemma asyncRun_fst : ∀ (plan : Plan) (v : Value) (tr : Trace),
    ∃ evs : Trace, (asyncRun plan v tr).1 = tr ++ evs ∧
      (∃ later, evs.map CallEvent.rid ++ later = planAsyncCalls plan) ∧
      (∀ w : Value, (asyncRun plan v tr).2 = .ok w →
        evs.map CallEvent.rid = planAsyncCalls plan) := by
  intro plan
  induction plan with
  | nil =>
    intro v tr
    exact ⟨[], by simp [asyncRun], ⟨[], by simp [planAsyncCalls]⟩, fun w _ => by simp [planAsyncCalls]⟩
  | cons e rest ih =>
    intro v tr
    obtain ⟨evs1, h1, hc1⟩ := stepAsync_fst e v tr
    cases hs : stepAsync e v tr with
    | mk t2 r =>
      rw [hs] at h1
      dsimp at h1
      subst h1
      cases r with
      | error err =>
        refine ⟨evs1, ?_, ?_, ?_⟩
        · simp [asyncRun, hs]
        · exact ⟨planAsyncCalls rest, by simp [planAsyncCalls, hc1]⟩
        · intro w hw
          rw [show (asyncRun (e :: rest) v tr).2 = .error err by simp [asyncRun, hs]] at hw
          exact absurd hw (by simp)
      | ok u =>
        obtain ⟨evs2, h2, ⟨later2, hl2⟩, hfull2⟩ := ih u (tr ++ evs1)
        have hrun : asyncRun (e :: rest) v tr = asyncRun rest u (tr ++ evs1) := by
          simp [asyncRun, hs]
        refine ⟨evs1 ++ evs2, ?_, ?_, ?_⟩
        · rw [hrun, h2, List.append_assoc]
        · exact ⟨later2, by simp [planAsyncCalls, hc1, ← hl2]⟩
        · intro w hw
          rw [hrun] at hw
          simp [planAsyncCalls, hc1, hfull2 w hw]

lemma goodStep_snd (e : Entry) (h : GoodEntry e) (v : Value) (tr tr' : Trace) :
    (stepSync e v tr).2 = (stepAsync e v tr').2 := by
  cases e with
  | single m => cases m <;> rfl
  | tup ms =>
    cases ms with
    | nil => rfl
    | cons m0 ms2 =>
      cases ms2 with
      | nil => cases m0 <;> rfl
      | cons m1 ms3 =>
        cases ms3 with
        | cons m2 ms4 =>
          exfalso
          cases m0 <;> cases m1 <;> exact h
        | nil =>
          cases m0 with
          | afn f => exfalso; cases m1 <;> exact h
          | val w => exfalso; cases m1 <;> exact h
          | fn f =>
            cases m1 with
            | fn g => exact absurd h (by simp [GoodEntry])
            | val w => exact absurd h (by simp [GoodEntry])
            | afn g =>
              have himpl : f.impl = g.impl := h
              show (callPlain (.fn f) v tr).2 = (callAwaited (.afn g) v tr').2
              simp only [callPlain, callAwaited]
              exact _call_with_args_congr himpl v

lemma runs_snd_eq : ∀ (plan : Plan), (∀ e ∈ plan, GoodEntry e) →
    ∀ (v : Value) (tr tr' : Trace), (syncRun plan v tr).2 = (asyncRun plan v tr').2 := by
  intro plan
  induction plan with
  | nil => intro _ v tr tr'; rfl
  | cons e rest ih =>
    intro hg v tr tr'
    have he : GoodEntry e := hg e (List.mem_cons_self e rest)
    have hr : ∀ x ∈ rest, GoodEntry x := fun x hx => hg x (List.mem_cons_of_mem e hx)
    have hstep := goodStep_snd e he v tr tr'
    simp only [syncRun, asyncRun]
    cases h1 : stepSync e v tr with
    | mk t1 r1 =>
      cases h2 : stepAsync e v tr' with
      | mk t2 r2 =>
        rw [h1, h2] at hstep
        dsimp at hstep
        subst hstep
        cases r1 with
        | error err => rfl
        | ok u => exact ih hr u t1 t2

/-- C8: running an empty plan returns the initial empty accumulator
(`None`) as the overall result, with an empty invocation trace (no routine
invoked, hence no suspension point ever reached), under both modes: the
`SYNC` entry point returns that result directly, and the `ASYNC` entry
point returns a coroutine whose await (`_do_async_call []`) does the
same. -/
theorem ambisync_c8 :
    _do_sync_call [] = ([], .ok .none) ∧
    _do_async_call [] = ([], .ok .none) ∧
    AmbisyncBaseClass._ambisync ⟨SYNC⟩ [] = .ok (.syncResult ([], .ok .none)) ∧
    AmbisyncBaseClass._ambisync ⟨ASYNC⟩ [] = .ok (.coroutine []) := by
  refine ⟨rfl, rfl, ?_, ?_⟩ <;>
    simp [AmbisyncBaseClass._ambisync, SYNC, ASYNC, _do_sync_call, syncRun]

/-- C9: `_call_ambisync(method)` returns a two-element pair both of whose
elements are the given method, and that pair is a Dual-style step spec:
sync resolution picks the method (element 0), async resolution picks the
method again (element 1), awaited. -/
theorem ambisync_c9 (method : Member) :
    AmbisyncBaseClass._call_ambisync method = .tup [method, method] ∧
    resolveSyncEntry (AmbisyncBaseClass._call_ambisync method) = .ok method ∧
    resolveAsyncEntry (AmbisyncBaseClass._call_ambisync method) = .ok (method, true) :=
  ⟨rfl, rfl, rfl⟩

/-- C6: constructing `AmbisyncBaseClass` with anything other than the two
recognized mode tokens raises the library's configuration error
(`AmbisyncError`); constructing it with either token succeeds and stores
that mode unchanged. -/
theorem ambisync_c6 (mode : ModeVal) (h1 : mode ≠ SYNC) (h2 : mode ≠ ASYNC) :
    AmbisyncBaseClass.init mode = .error .ambisyncError ∧
    AmbisyncBaseClass.init SYNC = .ok ⟨SYNC⟩ ∧
    AmbisyncBaseClass.init ASYNC = .ok ⟨ASYNC⟩ := by
  refine ⟨by simp [AmbisyncBaseClass.init, h1, h2], rfl, rfl⟩

/-- C6 witness: a `ModeVal` that is neither singleton is rejected, and
both singletons are accepted. -/
theorem ambisync_c6_witness :
    ((⟨.syncCls, 7⟩ : ModeVal) ≠ SYNC ∧ (⟨.syncCls, 7⟩ : ModeVal) ≠ ASYNC) ∧
    (AmbisyncBaseClass.init ⟨.syncCls, 7⟩ = .error .ambisyncError ∧
     AmbisyncBaseClass.init SYNC = .ok ⟨SYNC⟩ ∧
     AmbisyncBaseClass.init ASYNC = .ok ⟨ASYNC⟩) :=
  ⟨⟨by decide, by decide⟩, ambisync_c6 ⟨.syncCls, 7⟩ (by decide) (by decide)⟩

/-- C10: the constructor's check is object identity, not type: a fresh
`_Sync()` instance (same class as the `SYNC` singleton, different object
identity) is rejected with the configuration error, and the only accepted
arguments are the two module-level singletons themselves. -/
theorem ambisync_c10 (k : Nat) (h1 : freshSync k ≠ SYNC) (h2 : freshSync k ≠ ASYNC) :
    ((freshSync k).cls = SYNC.cls ∧
     AmbisyncBaseClass.init (freshSync k) = .error .ambisyncError) ∧
    (∀ mode : ModeVal, (∃ b, AmbisyncBaseClass.init mode = .ok b) →
      mode = SYNC ∨ mode = ASYNC) := by
  refine ⟨⟨rfl, by simp [AmbisyncBaseClass.init, h1, h2]⟩, ?_⟩
  rintro mode ⟨b, hb⟩
  by_contra hc
  push_neg at hc
  simp [AmbisyncBaseClass.init, hc.1, hc.2] at hb

/-- C10 witness: `_Sync()` allocated as object 2 is of the recognized
class yet rejected. -/
theorem ambisync_c10_witness :
    (freshSync 2 ≠ SYNC ∧ freshSync 2 ≠ ASYNC) ∧
    (((freshSync 2).cls = SYNC.cls ∧
      AmbisyncBaseClass.init (freshSync 2) = .error .ambisyncError) ∧
     (∀ mode : ModeVal, (∃ b, AmbisyncBaseClass.init mode = .ok b) →
       mode = SYNC ∨ mode = ASYNC)) :=
  ⟨⟨by decide, by decide⟩, ambisync_c10 2 (by decide) (by decide)⟩

/-- C2: the blocking interpreter refines the spec's algorithm: it starts
the accumulator at the empty value and folds the steps in declaration
order, each call receiving the accumulator's positional and named values
unpacked (through `args.call_with`) when the accumulator is an `args`
bundle, and zero arguments otherwise — so every non-bundle intermediate
value, `None` or not (e.g. an integer), is dropped from the next step's
arguments — and the accumulator becomes each call's result. -/
theorem ambisync_c2 (plan : Plan) :
    (_do_sync_call plan).2 = specBlockingRun plan ∧
    (∀ (func : Routine) (pos : List Value) (kwds : List (String × Value)),
      _call_with_args func (.bundle pos kwds) = ArgsObj.call_with ⟨pos, kwds⟩ func) ∧
    (∀ func : Routine, _call_with_args func .none = func.impl [] []) ∧
    (∀ (func : Routine) (n : Int), _call_with_args func (.int n) = func.impl [] []) :=
  ⟨syncRun_snd_foldl plan .none [], fun _ _ _ => rfl, fun _ => rfl, fun _ _ => rfl⟩

/-- C1: for a plan whose Dual (two-element) steps pair a blocking routine
with a suspending routine of identical behavior, the blocking run
(`_do_sync_call`) and the suspending run (`_do_async_call`, each awaited
suspending routine completing with its paired routine's result) produce
identical final results. -/
theorem ambisync_c1 (plan : Plan) (h : ∀ e ∈ plan, GoodEntry e) :
    (_do_sync_call plan).2 = (_do_async_call plan).2 :=
  runs_snd_eq plan h .none [] []

def wImplA : List Value → List (String × Value) → Except PyErr Value :=
  fun _ _ => .ok (.bundle [.int 5] [])

def wImplB : List Value → List (String × Value) → Except PyErr Value :=
  fun pos _ =>
    match pos with
    | [.int n] => .ok (.int (n + 1))
    | _ => .error .typeError

def wSyncA : Routine := ⟨1, wImplA⟩

def wAsyncA : Routine := ⟨2, wImplA⟩

def wSyncB : Routine := ⟨3, wImplB⟩

/-- A two-step plan: a Dual step (behaviorally equivalent pair) followed
by a one-element step. -/
def wPlanC1 : Plan := [.tup [.fn wSyncA, .afn wAsyncA], .tup [.fn wSyncB]]

/-- C1 witness: on a concrete plan with an equivalent Dual pair, both runs
agree. -/
theorem ambisync_c1_witness :
    (∀ e ∈ wPlanC1, GoodEntry e) ∧
    (_do_sync_call wPlanC1).2 = (_do_async_call wPlanC1).2 := by
  have hg : ∀ e ∈ wPlanC1, GoodEntry e := by
    intro e he
    simp only [wPlanC1, List.mem_cons, List.mem_singleton] at he
    rcases he with h | h | h
    · subst h; exact rfl
    · subst h; trivial
    · exact absurd h (by simp)
  exact ⟨hg, ambisync_c1 wPlanC1 hg⟩

/-- C3: for any plan containing a Dual (two-element) step `(f, g)`: that
step's sync-mode invocation contribution is exactly `[f.rid]` (the
suspending routine contributes nothing) and its async-mode contribution is
exactly `[g.rid]` (the blocking routine contributes nothing); globally,
the sync run's invocation trace is a prefix of the concatenated per-step
sync contributions in step order — equal to it when the run completes
without error — and likewise for the async run, whose awaited call of
step `i` is recorded before any step `i+1` invocation. So under each mode
exactly one routine of the pair runs when the step executes: never both,
never neither. -/
theorem ambisync_c3 (plan : Plan) (i : Nat) (f g : Routine)
    (_h : plan.get? i = some (.tup [.fn f, .afn g])) :
    (entrySyncCalls (.tup [.fn f, .afn g]) = [f.rid] ∧
     entryAsyncCalls (.tup [.fn f, .afn g]) = [g.rid]) ∧
    (∃ later, (_do_sync_call plan).1.map CallEvent.rid ++ later = planSyncCalls plan) ∧
    (∀ w : Value, (_do_sync_call plan).2 = .ok w →
      (_do_sync_call plan).1.map CallEvent.rid = planSyncCalls plan) ∧
    (∃ later, (_do_async_call plan).1.map CallEvent.rid ++ later = planAsyncCalls plan) ∧
    (∀ w : Value, (_do_async_call plan).2 = .ok w →
      (_do_async_call plan).1.map CallEvent.rid = planAsyncCalls plan) := by
  obtain ⟨evs, h1, hpre, hfull⟩ := syncRun_fst plan .none []
  obtain ⟨evs', h1', hpre', hfull'⟩ := asyncRun_fst plan .none []
  rw [List.nil_append] at h1 h1'
  refine ⟨⟨rfl, rfl⟩, ?_, ?_, ?_, ?_⟩
  · rw [show (_do_sync_call plan).1 = evs from h1]; exact hpre
  · intro w hw
    rw [show (_do_sync_call plan).1 = evs from h1]
    exact hfull w hw
  · rw [show (_do_async_call plan).1 = evs' from h1']; exact hpre'
  · intro w hw
    rw [show (_do_async_call plan).1 = evs' from h1']
    exact hfull' w hw

/-- C3 witness: a concrete plan whose step 0 is a Dual pair. -/
theorem ambisync_c3_witness :
    wPlanC1.get? 0 = some (.tup [.fn wSyncA, .afn wAsyncA]) ∧
    ((entrySyncCalls (.tup [.fn wSyncA, .afn wAsyncA]) = [wSyncA.rid] ∧
      entryAsyncCalls (.tup [.fn wSyncA, .afn wAsyncA]) = [wAsyncA.rid]) ∧
     (∃ later, (_do_sync_call wPlanC1).1.map CallEvent.rid ++ later = planSyncCalls wPlanC1) ∧
     (∀ w : Value, (_do_sync_call wPlanC1).2 = .ok w →
       (_do_sync_call wPlanC1).1.map CallEvent.rid = planSyncCalls wPlanC1) ∧
     (∃ later, (_do_async_call wPlanC1).1.map CallEvent.rid ++ later = planAsyncCalls wPlanC1) ∧
     (∀ w : Value, (_do_async_call wPlanC1).2 = .ok w →
       (_do_async_call wPlanC1).1.map CallEvent.rid = planAsyncCalls wPlanC1)) :=
  ⟨rfl, ambisync_c3 wPlanC1 0 wSyncA wAsyncA rfl⟩

/-- C4: if the steps before `e` complete with accumulator `v` and trace
`t`, and executing `e` raises `err`, then for ANY remaining steps `post`
the whole run ends with exactly `(te, .error err)`: no subsequent step is
ever invoked (the trace is `te`, independent of `post`), no partial
accumulator is returned, and the identical error value propagates — the
`SYNC` entry point returns it synchronously, the `ASYNC` entry point
returns a coroutine whose await (`_do_async_call`) fails the same way. -/
theorem ambisync_c4 (pre post : Plan) (e : Entry)
    (t t' te te' : Trace) (v v' : Value) (err err' : PyErr)
    (hs : syncRun pre .none [] = (t, .ok v))
    (he : stepSync e v t = (te, .error err))
    (ha : asyncRun pre .none [] = (t', .ok v'))
    (hae : stepAsync e v' t' = (te', .error err')) :
    _do_sync_call (pre ++ e :: post) = (te, .error err) ∧
    AmbisyncBaseClass._ambisync ⟨SYNC⟩ (pre ++ e :: post) =
      .ok (.syncResult (te, .error err)) ∧
    _do_async_call (pre ++ e :: post) = (te', .error err') ∧
    AmbisyncBaseClass._ambisync ⟨ASYNC⟩ (pre ++ e :: post) =
      .ok (.coroutine (pre ++ e :: post)) := by
  have hsync : _do_sync_call (pre ++ e :: post) = (te, .error err) := by
    unfold _do_sync_call
    rw [syncRun_append_ok pre .none [] t v hs (e :: post)]
    simp [syncRun, he]
  have hasync : _do_async_call (pre ++ e :: post) = (te', .error err') := by
    unfold _do_async_call
    rw [asyncRun_append_ok pre .none [] t' v' ha (e :: post)]
    simp [asyncRun, hae]
  refine ⟨hsync, ?_, hasync, ?_⟩
  · simp [AmbisyncBaseClass._ambisync, hsync]
  · simp [AmbisyncBaseClass._ambisync, SYNC, ASYNC]

def wOkR : Routine := ⟨4, fun _ _ => .ok (.int 10)⟩

def wRaiseR : Routine := ⟨5, fun _ _ => .error (.user (.str "boom"))⟩

def wNeverR : Routine := ⟨6, fun _ _ => .ok (.int 99)⟩

/-- C4 witness: a concrete plan whose middle step raises a user error;
the final step's routine is never invoked and the error is returned
unmodified under both modes. -/
theorem ambisync_c4_witness :
    (syncRun [Entry.single (.fn wOkR)] .none [] = ([⟨4, [], []⟩], .ok (.int 10)) ∧
     stepSync (.single (.fn wRaiseR)) (.int 10) [⟨4, [], []⟩] =
       ([⟨4, [], []⟩, ⟨5, [], []⟩], .error (.user (.str "boom"))) ∧
     asyncRun [Entry.single (.fn wOkR)] .none [] = ([⟨4, [], []⟩], .ok (.int 10)) ∧
     stepAsync (.single (.fn wRaiseR)) (.int 10) [⟨4, [], []⟩] =
       ([⟨4, [], []⟩, ⟨5, [], []⟩], .error (.user (.str "boom")))) ∧
    (_do_sync_call ([Entry.single (.fn wOkR)] ++ Entry.single (.fn wRaiseR) :: [Entry.single (.fn wNeverR)]) =
       ([⟨4, [], []⟩, ⟨5, [], []⟩], .error (.user (.str "boom"))) ∧
     AmbisyncBaseClass._ambisync ⟨SYNC⟩
         ([Entry.single (.fn wOkR)] ++ Entry.single (.fn wRaiseR) :: [Entry.single (.fn wNeverR)]) =
       .ok (.syncResult ([⟨4, [], []⟩, ⟨5, [], []⟩], .error (.user (.str "boom")))) ∧
     _do_async_call ([Entry.single (.fn wOkR)] ++ Entry.single (.fn wRaiseR) :: [Entry.single (.fn wNeverR)]) =
       ([⟨4, [], []⟩, ⟨5, [], []⟩], .error (.user (.str "boom"))) ∧
     AmbisyncBaseClass._ambisync ⟨ASYNC⟩
         ([Entry.single (.fn wOkR)] ++ Entry.single (.fn wRaiseR) :: [Entry.single (.fn wNeverR)]) =
       .ok (.coroutine ([Entry.single (.fn wOkR)] ++ Entry.single (.fn wRaiseR) :: [Entry.single (.fn wNeverR)]))) :=
  ⟨⟨rfl, rfl, rfl, rfl⟩,
    ambisync_c4 [Entry.single (.fn wOkR)] [Entry.single (.fn wNeverR)]
      (.single (.fn wRaiseR)) [⟨4, [], []⟩] [⟨4, [], []⟩]
      [⟨4, [], []⟩, ⟨5, [], []⟩] [⟨4, [], []⟩, ⟨5, [], []⟩]
      (.int 10) (.int 10) (.user (.str "boom")) (.user (.str "boom"))
      rfl rfl rfl rfl⟩

/-- C7: for a non-empty plan whose earlier steps complete and whose last
step's call returns `w` — any value, including an `args` bundle — the
overall result is exactly `w`, verbatim, under each mode: the
bundle-unwrap rule is never applied to the terminal value. -/
theorem ambisync_c7 (pre : Plan) (e : Entry)
    (t t' te te' : Trace) (v v' w w' : Value)
    (hs : syncRun pre .none [] = (t, .ok v))
    (he : stepSync e v t = (te, .ok w))
    (ha : asyncRun pre .none [] = (t', .ok v'))
    (hae : stepAsync e v' t' = (te', .ok w')) :
    _do_sync_call (pre ++ [e]) = (te, .ok w) ∧
    _do_async_call (pre ++ [e]) = (te', .ok w') := by
  constructor
  · unfold _do_sync_call
    rw [syncRun_append_ok pre .none [] t v hs [e]]
    simp [syncRun, he]
  · unfold _do_async_call
    rw [asyncRun_append_ok pre .none [] t' v' ha [e]]
    simp [asyncRun, hae]

def wLastR : Routine := ⟨7, fun _ _ => .ok (.bundle [.int 1] [("k", .int 2)])⟩

/-- C7 witness: the last step returns an `args` bundle and the plan's
overall result is that very bundle, not its unwrapped contents. -/
theorem ambisync_c7_witness :
    (syncRun [Entry.single (.fn wOkR)] .none [] = ([⟨4, [], []⟩], .ok (.int 10)) ∧
     stepSync (.single (.fn wLastR)) (.int 10) [⟨4, [], []⟩] =
       ([⟨4, [], []⟩, ⟨7, [], []⟩], .ok (.bundle [.int 1] [("k", .int 2)])) ∧
     asyncRun [Entry.single (.fn wOkR)] .none [] = ([⟨4, [], []⟩], .ok (.int 10)) ∧
     stepAsync (.single (.fn wLastR)) (.int 10) [⟨4, [], []⟩] =
       ([⟨4, [], []⟩, ⟨7, [], []⟩], .ok (.bundle [.int 1] [("k", .int 2)]))) ∧
    (_do_sync_call ([Entry.single (.fn wOkR)] ++ [Entry.single (.fn wLastR)]) =
       ([⟨4, [], []⟩, ⟨7, [], []⟩], .ok (.bundle [.int 1] [("k", .int 2)])) ∧
     _do_async_call ([Entry.single (.fn wOkR)] ++ [Entry.single (.fn wLastR)]) =
       ([⟨4, [], []⟩, ⟨7, [], []⟩], .ok (.bundle [.int 1] [("k", .int 2)]))) :=
  ⟨⟨rfl, rfl, rfl, rfl⟩,
    ambisync_c7 [Entry.single (.fn wOkR)] (.single (.fn wLastR))
      [⟨4, [], []⟩] [⟨4, [], []⟩] [⟨4, [], []⟩, ⟨7, [], []⟩] [⟨4, [], []⟩, ⟨7, [], []⟩]
      (.int 10) (.int 10) (.bundle [.int 1] [("k", .int 2)]) (.bundle [.int 1] [("k", .int 2)])
      rfl rfl rfl rfl⟩

def wFirstR : Routine := ⟨8, fun _ _ => .ok (.int 1)⟩

/-- A plan whose second step spec is malformed: its only member is the
non-callable value `42`. -/
def badPlanC5 : Plan := [.single (.fn wFirstR), .tup [.val (.int 42)]]

/-- C5 counterexample: the code performs no plan-construction-time
validation and defines no `StepSpecError` at all. On a concrete malformed
plan, the first step's routine executes (the trace is non-empty) before
the failure, the failure is the underlying `TypeError` from calling a
non-callable, and under `ASYNC` the entry point returns the coroutine
with no error raised at all — refuting "raised at plan-construction time
as a StepSpecError, before any step routine executes". -/
theorem ambisync_c5_cex :
    (_do_sync_call badPlanC5).1 = [⟨8, [], []⟩] ∧
    (_do_sync_call badPlanC5).2 = .error .typeError ∧
    AmbisyncBaseClass._ambisync ⟨ASYNC⟩ badPlanC5 = .ok (.coroutine badPlanC5) := by
  refine ⟨rfl, rfl, ?_⟩
  simp [AmbisyncBaseClass._ambisync, SYNC, ASYNC]

/-- C5 (amended): malformed step specs are NOT validated up front and
there is no `StepSpecError`; a step whose resolved member is a
non-callable value fails with Python's `TypeError` only when that step
executes — after all earlier steps' routines have already run (trace `t`)
— and under `ASYNC` the entry point returns the coroutine without any
validation, deferring the failure to await time. -/
theorem ambisync_c5 (pre post : Plan) (w : Value) (t : Trace) (v : Value)
    (hs : syncRun pre .none [] = (t, .ok v)) :
    _do_sync_call (pre ++ .tup [.val w] :: post) = (t, .error .typeError) ∧
    AmbisyncBaseClass._ambisync ⟨ASYNC⟩ (pre ++ .tup [.val w] :: post) =
      .ok (.coroutine (pre ++ .tup [.val w] :: post)) := by
  constructor
  · unfold _do_sync_call
    rw [syncRun_append_ok pre .none [] t v hs (.tup [.val w] :: post)]
    simp [syncRun, stepSync, resolveSyncEntry, callPlain]
  · simp [AmbisyncBaseClass._ambisync, SYNC, ASYNC]

/-- C5 witness: the amended statement at the concrete malformed plan. -/
theorem ambisync_c5_witness :
    syncRun [Entry.single (.fn wFirstR)] .none [] = ([⟨8, [], []⟩], .ok (.int 1)) ∧
    (_do_sync_call ([Entry.single (.fn wFirstR)] ++ Entry.tup [.val (.int 42)] :: []) =
       ([⟨8, [], []⟩], .error .typeError) ∧
     AmbisyncBaseClass._ambisync ⟨ASYNC⟩
         ([Entry.single (.fn wFirstR)] ++ Entry.tup [.val (.int 42)] :: []) =
       .ok (.coroutine ([Entry.single (.fn wFirstR)] ++ Entry.tup [.val (.int 42)] :: []))) :=
  ⟨rfl, ambisync_c5 [Entry.single (.fn wFirstR)] [] (.int 42) [⟨8, [], []⟩] (.int 1) rfl⟩
